import Mathlib

/-!
Shallow embedding of the netpoll option/configuration layer
(`netpoll_options.go`): the `Option` functional-option mechanism, the
`options` configuration record, the `prepare` lifecycle-hook wrapper, and
the three global tuning passthroughs.

Go's `time.Duration` is an `int64` nanosecond count; the code here only
stores and copies durations (no arithmetic), so they are embedded as `Int`.
Request handlers (`OnRequest`) are opaque values that the code only stores,
so the development is parametric in a handler type `H`.
-/

namespace Netpoll

/-- Modelled from the spec: `context.Context` values are opaque to this
layer; the only distinguished value is the default background context
returned by `context.Background()`. Other context values produced by a
caller's preparation callback are tagged with an identifier. -/
inductive Context where
  | background
  | value (id : Nat)
deriving DecidableEq, Repr

/-- Modelled from the spec: the external `Connection` collaborator, as seen
through the three setter operations this layer uses
(`SetOnRequest`, `SetReadTimeout`, `SetIdleTimeout`). -/
structure Conn (H : Type) where
  onRequest : Option H
  readTimeout : Int
  idleTimeout : Int

/-- Modelled from the spec: `Connection.SetOnRequest(handler)` installs the
per-read dispatch target on the connection. -/
def Conn.SetOnRequest {H : Type} (c : Conn H) (handler : H) : Conn H :=
  { c with onRequest := some handler }

/-- Modelled from the spec: `Connection.SetReadTimeout(duration)` installs
the per-connection read timer. -/
def Conn.SetReadTimeout {H : Type} (c : Conn H) (t : Int) : Conn H :=
  { c with readTimeout := t }

/-- Modelled from the spec: `Connection.SetIdleTimeout(duration)` installs
the per-connection idle timer. -/
def Conn.SetIdleTimeout {H : Type} (c : Conn H) (t : Int) : Conn H :=
  { c with idleTimeout := t }

/-- The underlying function type of a non-nil `OnPrepare` callback:
`func(Connection) context.Context`.  A Go callback receives the connection
by interface and may mutate it, so it is embedded as returning the updated
connection together with its context result. -/
def PrepareFn (H : Type) : Type :=
  Conn H → Conn H × Context

/-- Go's `OnPrepare` function type is nilable; `none` embeds the nil
function value. -/
abbrev OnPrepare (H : Type) : Type :=
  Option (PrepareFn H)

end Netpoll

namespace Netpoll

/-- `type options struct` from `netpoll_options.go`: the mutable
configuration record built by applying Options. -/
structure options (H : Type) where
  onPrepare : OnPrepare H
  readTimeout : Int
  idleTimeout : Int

/-- `type Option struct { f func(*options) }`: an opaque unit wrapping a
single mutation over the configuration.  Go's in-place mutation of
`*options` is embedded as a pure `options → options` function. -/
structure Option (H : Type) where
  f : options H → options H

/-- `WithOnPrepare` from `netpoll_options.go`: registers the OnPrepare
callback. -/
def WithOnPrepare {H : Type} (onPrepare : OnPrepare H) : Option H :=
  ⟨fun op => { op with onPrepare := onPrepare }⟩

/-- `WithReadTimeout` from `netpoll_options.go`: sets the read timeout of
connections. -/
def WithReadTimeout {H : Type} (timeout : Int) : Option H :=
  ⟨fun op => { op with readTimeout := timeout }⟩

/-- `WithIdleTimeout` from `netpoll_options.go`: sets the idle timeout of
connections. -/
def WithIdleTimeout {H : Type} (timeout : Int) : Option H :=
  ⟨fun op => { op with idleTimeout := timeout }⟩

/-- `(opt *options) prepare(onRequest OnRequest) OnPrepare` from
`netpoll_options.go`: produces the lifecycle hook that installs the request
handler and both timeouts on the connection, then either delegates to the
configured preparation callback or returns the background context. -/
def prepare {H : Type} (opt : options H) (onRequest : H) : PrepareFn H :=
  fun connection =>
    let c1 := connection.SetOnRequest onRequest
    let c2 := c1.SetReadTimeout opt.readTimeout
    let c3 := c2.SetIdleTimeout opt.idleTimeout
    match opt.onPrepare with
    | some cb => cb c3
    | none => (c3, Context.background)

/-- The zero value of the Go `options` struct: nil callback and zero
durations. -/
def zeroOptions (H : Type) : options H :=
  { onPrepare := none, readTimeout := 0, idleTimeout := 0 }

/-- Modelled from the spec: the configuration resolver (the service
constructor, outside this file's source) folds the caller's Options over
the zero-valued configuration, in caller-supplied order. -/
def resolveOptions {H : Type} (opts : List (Option H)) : options H :=
  opts.foldl (fun op o => o.f op) (zeroOptions H)

end Netpoll

namespace Netpoll

/-- Modelled from the spec: Go's `error` result — nil on success, or an
opaque error value (tagged here by a numeric code) on failure. -/
inductive GoError where
  | nil
  | err (code : Nat)
deriving DecidableEq, Repr

/-- Modelled from the spec: the load-balancing strategy is a small closed
enumeration, embedded as its integer code (`type LoadBalance int`). -/
abbrev LoadBalance : Type := Int

/-- Modelled from the spec: the external engine's process-wide tuning
surface (`setNumLoops`, `setLoadBalance`, `disableGopool` live outside this
file's source), as an abstract record of operations returning a
success/failure result. -/
structure Engine where
  setNumLoops : Int → GoError
  setLoadBalance : LoadBalance → GoError
  disableGopool : Unit → GoError

/-- `SetNumLoops` from `netpoll_options.go`: forwards to the engine's
`setNumLoops`. -/
def SetNumLoops (e : Engine) (numLoops : Int) : GoError :=
  e.setNumLoops numLoops

/-- `SetLoadBalance` from `netpoll_options.go`: forwards to the engine's
`setLoadBalance`. -/
def SetLoadBalance (e : Engine) (lb : LoadBalance) : GoError :=
  e.setLoadBalance lb

/-- `DisableGopool` from `netpoll_options.go`: forwards to the engine's
`disableGopool`. -/
def DisableGopool (e : Engine) : GoError :=
  e.disableGopool ()

/-- The shared state of the running engine, as the lifecycle hook sees it:
the resolved configuration plus the family of accepted connections,
indexed by an accept number. -/
structure LoopState (H : Type) where
  config : options H
  conns : Nat → Conn H

/-- Modelled from the spec: the engine invokes the lifecycle hook produced
by `prepare` once per accepted connection, handing the hook connection `i`;
the hook's connection mutations land on connection `i` of the shared
state, and the hook's context result is returned to the accept path. -/
def invokeHook {H : Type} (onRequest : H) (s : LoopState H)
    (i : Nat) : LoopState H × Context :=
  let r := prepare s.config onRequest (s.conns i)
  ({ config := s.config, conns := fun j => if j = i then r.1 else s.conns j }, r.2)

/-- The options produced by the three public factories, tagged by
constructor so that the field each one touches can be inspected. -/
inductive FOpt (H : Type) where
  | withOnPrepare (p : OnPrepare H)
  | withReadTimeout (t : Int)
  | withIdleTimeout (t : Int)

/-- The `Option` value a factory-produced option denotes. -/
def FOpt.toOption {H : Type} : FOpt H → Option H
  | .withOnPrepare p => WithOnPrepare p
  | .withReadTimeout t => WithReadTimeout t
  | .withIdleTimeout t => WithIdleTimeout t

/-- The index of the single configuration field a factory-produced option
targets: 0 = onPrepare, 1 = readTimeout, 2 = idleTimeout. -/
def FOpt.fieldIdx {H : Type} : FOpt H → Nat
  | .withOnPrepare _ => 0
  | .withReadTimeout _ => 1
  | .withIdleTimeout _ => 2

/-- Application of a factory-produced option to a configuration. -/
def applyFOpt {H : Type} (op : options H) (o : FOpt H) : options H :=
  o.toOption.f op

end Netpoll


namespace Netpoll

/-- Helper: two factory-produced options that target distinct configuration
fields commute under application. -/
theorem applyFOpt_comm {H : Type} (x y : FOpt H) (hne : x.fieldIdx ≠ y.fieldIdx)
    (z : options H) : applyFOpt (applyFOpt z x) y = applyFOpt (applyFOpt z y) x := by
  cases x <;> cases y <;> first
    | rfl
    | exact absurd rfl hne

/-- Claim C1: with no preparation callback configured, the hook produced by
`prepare h` sets the connection's request handler to `h`, its read timeout
to the configured read timeout, its idle timeout to the configured idle
timeout, and returns the default background context. -/
theorem prepare_no_callback {H : Type} (opt : options H) (h : H) (c : Conn H)
    (hnone : opt.onPrepare = none) :
    prepare opt h c =
      ({ onRequest := some h, readTimeout := opt.readTimeout,
         idleTimeout := opt.idleTimeout }, Context.background) := by
  simp [prepare, hnone, Conn.SetOnRequest, Conn.SetReadTimeout, Conn.SetIdleTimeout]

/-- The claim C1 configuration used for the witness: read timeout 5s
(5e9 ns), idle timeout 30s (3e10 ns), no preparation callback. -/
def optC1 : options Nat :=
  { onPrepare := none, readTimeout := 5000000000, idleTimeout := 30000000000 }

/-- Witness for claim C1 at a concrete configuration, handler and
connection. -/
theorem prepare_no_callback_witness :
    optC1.onPrepare = none ∧
    prepare optC1 7 ⟨none, 0, 0⟩ =
      ({ onRequest := some 7, readTimeout := optC1.readTimeout,
         idleTimeout := optC1.idleTimeout }, Context.background) :=
  ⟨rfl, prepare_no_callback optC1 7 ⟨none, 0, 0⟩ rfl⟩

/-- Claim C2: with a preparation callback `cb` configured, the hook
installs the handler and both configured timeouts on the connection before
invoking `cb`, and returns exactly the result of `cb`; hence the
connection's final read timeout (and final state generally) is whatever
`cb` produced from the fully-initialized connection. -/
theorem prepare_with_callback {H : Type} (opt : options H) (cb : PrepareFn H)
    (h : H) (c : Conn H) (hcb : opt.onPrepare = some cb) :
    prepare opt h c =
      cb { onRequest := some h, readTimeout := opt.readTimeout,
           idleTimeout := opt.idleTimeout } ∧
    (prepare opt h c).1.readTimeout =
      (cb { onRequest := some h, readTimeout := opt.readTimeout,
            idleTimeout := opt.idleTimeout }).1.readTimeout ∧
    (prepare opt h c).2 =
      (cb { onRequest := some h, readTimeout := opt.readTimeout,
            idleTimeout := opt.idleTimeout }).2 := by
  have hmain : prepare opt h c =
      cb { onRequest := some h, readTimeout := opt.readTimeout,
           idleTimeout := opt.idleTimeout } := by
    simp [prepare, hcb, Conn.SetOnRequest, Conn.SetReadTimeout, Conn.SetIdleTimeout]
  exact ⟨hmain, by rw [hmain], by rw [hmain]⟩

/-- The claim C2 callback for the witness: overrides the read timeout to 1s
and returns context value 42. -/
def cb42 : PrepareFn Nat :=
  fun c => ({ c with readTimeout := 1000000000 }, Context.value 42)

/-- The claim C2 configuration for the witness: read timeout 5s, idle
timeout 30s, preparation callback `cb42`. -/
def optC2 : options Nat :=
  { onPrepare := some cb42, readTimeout := 5000000000, idleTimeout := 30000000000 }

/-- Witness for claim C2: with `cb42` configured, the hook hands `cb42` the
fully-initialized connection, and the final read timeout is the 1s override
while the hook returns context value 42. -/
theorem prepare_with_callback_witness :
    optC2.onPrepare = some cb42 ∧
    prepare optC2 7 ⟨none, 0, 0⟩ =
      cb42 { onRequest := some 7, readTimeout := optC2.readTimeout,
             idleTimeout := optC2.idleTimeout } ∧
    (prepare optC2 7 ⟨none, 0, 0⟩).1.readTimeout = 1000000000 ∧
    (prepare optC2 7 ⟨none, 0, 0⟩).2 = Context.value 42 := by
  have happ := prepare_with_callback optC2 cb42 7 ⟨none, 0, 0⟩ rfl
  exact ⟨rfl, happ.1, happ.2.1, happ.2.2⟩

/-- Claim C3: applying two Options that target the same field in order
`[A, B]` leaves that field holding B's value, whatever A's value was
(last-writer-wins), for each of the three factories; in particular
resolving `[WithReadTimeout 5s, WithReadTimeout 10s]` yields a read
timeout of 10s. -/
theorem option_last_writer_wins {H : Type} (a b : Int) (p q : OnPrepare H)
    (op : options H) :
    ((WithReadTimeout b : Option H).f ((WithReadTimeout a : Option H).f op)).readTimeout = b ∧
    ((WithIdleTimeout b : Option H).f ((WithIdleTimeout a : Option H).f op)).idleTimeout = b ∧
    ((WithOnPrepare q).f ((WithOnPrepare p).f op)).onPrepare = q ∧
    (resolveOptions [(WithReadTimeout 5000000000 : Option H),
        WithReadTimeout 10000000000]).readTimeout = 10000000000 :=
  ⟨rfl, rfl, rfl, rfl⟩

/-- Claim C4: for factory-produced Options touching pairwise disjoint
fields, resolving them in any order yields the same configuration (folding
any permutation of the sequence gives an equal result). -/
theorem fold_options_perm_invariant {H : Type} (l₁ l₂ : List (FOpt H))
    (z : options H) (hperm : l₁.Perm l₂)
    (hdisj : l₁.Pairwise fun a b => a.fieldIdx ≠ b.fieldIdx) :
    l₁.foldl applyFOpt z = l₂.foldl applyFOpt z := by
  refine hperm.foldl_eq' ?_ z
  intro x hx y hy w
  by_cases hxy : x = y
  · subst hxy; rfl
  · have hsymm : Symmetric fun a b : FOpt H => a.fieldIdx ≠ b.fieldIdx :=
      fun _ _ hab h => hab h.symm
    exact applyFOpt_comm x y (hdisj.forall hsymm hx hy hxy) w

/-- Witness for claim C4: a read-timeout Option and an idle-timeout Option
resolve to the same configuration in either order. -/
theorem fold_options_perm_invariant_witness :
    ([FOpt.withReadTimeout 5000000000, FOpt.withIdleTimeout 30000000000] :
        List (FOpt Nat)).Perm
      [FOpt.withIdleTimeout 30000000000, FOpt.withReadTimeout 5000000000] ∧
    ([FOpt.withReadTimeout 5000000000, FOpt.withIdleTimeout 30000000000] :
        List (FOpt Nat)).Pairwise (fun a b => a.fieldIdx ≠ b.fieldIdx) ∧
    ([FOpt.withReadTimeout 5000000000, FOpt.withIdleTimeout 30000000000] :
        List (FOpt Nat)).foldl applyFOpt (zeroOptions Nat) =
      ([FOpt.withIdleTimeout 30000000000, FOpt.withReadTimeout 5000000000] :
        List (FOpt Nat)).foldl applyFOpt (zeroOptions Nat) := by
  have hperm :
      ([FOpt.withReadTimeout 5000000000, FOpt.withIdleTimeout 30000000000] :
        List (FOpt Nat)).Perm
      [FOpt.withIdleTimeout 30000000000, FOpt.withReadTimeout 5000000000] :=
    List.Perm.swap _ _ _
  have hdisj :
      ([FOpt.withReadTimeout 5000000000, FOpt.withIdleTimeout 30000000000] :
        List (FOpt Nat)).Pairwise (fun a b => a.fieldIdx ≠ b.fieldIdx) := by
    refine List.Pairwise.cons ?_ (List.pairwise_singleton _ _)
    intro y hy
    rw [List.mem_singleton] at hy
    subst hy
    simp [FOpt.fieldIdx]
  exact ⟨hperm, hdisj, fold_options_perm_invariant _ _ (zeroOptions Nat) hperm hdisj⟩

/-- Claim C5: configuration resolution is a total pure fold — it starts
from the zero-valued configuration (no callback, both timeouts 0), and
appending an Option to the sequence applies that Option's mutation to the
result of resolving the prefix, so each Option is applied in
caller-supplied order. -/
theorem resolve_total {H : Type} (l : List (Option H)) (o : Option H) :
    resolveOptions ([] : List (Option H)) = zeroOptions H ∧
    zeroOptions H = { onPrepare := none, readTimeout := 0, idleTimeout := 0 } ∧
    resolveOptions (l ++ [o]) = o.f (resolveOptions l) := by
  refine ⟨rfl, rfl, ?_⟩
  simp [resolveOptions, List.foldl_append]

end Netpoll

namespace Netpoll

/-- Claim C6: each of `SetNumLoops`, `SetLoadBalance` and `DisableGopool`
passes its argument verbatim to the corresponding engine operation and
returns exactly the engine's result; in particular when the engine rejects
an input, the caller sees the engine's failure unmodified. -/
theorem tuning_passthrough (e : Engine) (n : Int) (lb : LoadBalance)
    (code : Nat) (hrej : e.setNumLoops n = GoError.err code) :
    SetNumLoops e n = e.setNumLoops n ∧
    SetLoadBalance e lb = e.setLoadBalance lb ∧
    DisableGopool e = e.disableGopool () ∧
    SetNumLoops e n = GoError.err code :=
  ⟨rfl, rfl, rfl, hrej⟩

/-- A demonstration engine for the claim C6 witness: rejects non-positive
poller counts with error code 22, accepts everything else. -/
def engDemo : Engine :=
  { setNumLoops := fun n => if n ≤ 0 then GoError.err 22 else GoError.nil,
    setLoadBalance := fun _ => GoError.nil,
    disableGopool := fun _ => GoError.nil }

/-- Witness for claim C6: the demonstration engine rejects a poller count
of -1, and `SetNumLoops` surfaces exactly that failure. -/
theorem tuning_passthrough_witness :
    engDemo.setNumLoops (-1) = GoError.err 22 ∧
    SetNumLoops engDemo (-1) = engDemo.setNumLoops (-1) ∧
    SetLoadBalance engDemo 0 = engDemo.setLoadBalance 0 ∧
    DisableGopool engDemo = engDemo.disableGopool () ∧
    SetNumLoops engDemo (-1) = GoError.err 22 := by
  have hrej : engDemo.setNumLoops (-1) = GoError.err 22 := by decide
  have h := tuning_passthrough engDemo (-1) 0 22 hrej
  exact ⟨hrej, h.1, h.2.1, h.2.2.1, h.2.2.2⟩

/-- Claim C7: invoking the lifecycle hook on connection `i` of the shared
state leaves the resolved configuration unchanged and touches no
connection other than `i`; a subsequent invocation on a distinct
connection `k` initializes `k` from `k`'s own prior state, independent of
the invocation on `i` (no cross-talk). -/
theorem hook_frame {H : Type} (h : H) (s : LoopState H) (i j k : Nat)
    (hj : j ≠ i) (hk : k ≠ i) :
    (invokeHook h s i).1.config = s.config ∧
    (invokeHook h s i).1.conns j = s.conns j ∧
    (invokeHook h s i).1.conns i = (prepare s.config h (s.conns i)).1 ∧
    (invokeHook h s i).2 = (prepare s.config h (s.conns i)).2 ∧
    (invokeHook h (invokeHook h s i).1 k).1.conns k =
      (prepare s.config h (s.conns k)).1 := by
  refine ⟨rfl, ?_, ?_, rfl, ?_⟩
  · simp [invokeHook, hj]
  · simp [invokeHook]
  · simp [invokeHook, hk]

/-- A demonstration shared state for the claim C7 witness. -/
def loopDemo : LoopState Nat :=
  { config := { onPrepare := none, readTimeout := 5000000000,
                idleTimeout := 30000000000 },
    conns := fun j => ⟨none, Int.ofNat j, 0⟩ }

/-- Witness for claim C7 at a concrete state, invoking the hook on
connection 0 and then on connection 1. -/
theorem hook_frame_witness :
    (1 : Nat) ≠ 0 ∧
    ((invokeHook 7 loopDemo 0).1.config = loopDemo.config ∧
     (invokeHook 7 loopDemo 0).1.conns 1 = loopDemo.conns 1 ∧
     (invokeHook 7 loopDemo 0).1.conns 0 =
       (prepare loopDemo.config 7 (loopDemo.conns 0)).1 ∧
     (invokeHook 7 loopDemo 0).2 = (prepare loopDemo.config 7 (loopDemo.conns 0)).2 ∧
     (invokeHook 7 (invokeHook 7 loopDemo 0).1 1).1.conns 1 =
       (prepare loopDemo.config 7 (loopDemo.conns 1)).1) :=
  ⟨by decide, hook_frame 7 loopDemo 0 1 1 (by decide) (by decide)⟩

/-- Claim C8: resolving `WithOnPrepare` applied to the nil callback and then
producing the lifecycle hook behaves exactly as when no preparation
callback was ever configured: the hook installs the handler and both
timeouts and returns the background context without invoking anything. -/
theorem prepare_nil_onprepare {H : Type} (op : options H) (h : H) (c : Conn H) :
    prepare ((WithOnPrepare none).f op) h c =
      ({ onRequest := some h, readTimeout := op.readTimeout,
         idleTimeout := op.idleTimeout }, Context.background) ∧
    prepare ((WithOnPrepare none).f op) h c =
      prepare { onPrepare := none, readTimeout := op.readTimeout,
                idleTimeout := op.idleTimeout } h c := by
  constructor
  · simp [prepare, WithOnPrepare, Conn.SetOnRequest, Conn.SetReadTimeout,
      Conn.SetIdleTimeout]
  · rfl

/-- Claim C9: each factory-produced Option mutates only its own target
field — `WithReadTimeout` leaves `onPrepare` and `idleTimeout` unchanged,
`WithIdleTimeout` leaves `onPrepare` and `readTimeout` unchanged, and
`WithOnPrepare` leaves both timeouts unchanged. -/
theorem option_frame {H : Type} (p : OnPrepare H) (t u : Int) (op : options H) :
    ((WithReadTimeout t : Option H).f op).readTimeout = t ∧
    ((WithReadTimeout t : Option H).f op).onPrepare = op.onPrepare ∧
    ((WithReadTimeout t : Option H).f op).idleTimeout = op.idleTimeout ∧
    ((WithIdleTimeout u : Option H).f op).idleTimeout = u ∧
    ((WithIdleTimeout u : Option H).f op).onPrepare = op.onPrepare ∧
    ((WithIdleTimeout u : Option H).f op).readTimeout = op.readTimeout ∧
    ((WithOnPrepare p).f op).onPrepare = p ∧
    ((WithOnPrepare p).f op).readTimeout = op.readTimeout ∧
    ((WithOnPrepare p).f op).idleTimeout = op.idleTimeout :=
  ⟨rfl, rfl, rfl, rfl, rfl, rfl, rfl, rfl, rfl⟩

/-- Claim C10: applying the same factory-produced Option twice in sequence
yields the same configuration as applying it once, for each of the three
factories. -/
theorem option_idempotent {H : Type} (p : OnPrepare H) (t u : Int) (op : options H) :
    (WithOnPrepare p).f ((WithOnPrepare p).f op) = (WithOnPrepare p).f op ∧
    (WithReadTimeout t : Option H).f ((WithReadTimeout t : Option H).f op) =
      (WithReadTimeout t : Option H).f op ∧
    (WithIdleTimeout u : Option H).f ((WithIdleTimeout u : Option H).f op) =
      (WithIdleTimeout u : Option H).f op :=
  ⟨rfl, rfl, rfl⟩

end Netpoll
